import Mathlib

/-!
Verification of the Malphas runtime core (src/runtime/runtime.c): the
bounded blocking channel, the per-worker work-stealing run queues, and the
legion (green-thread) lifecycle, shallowly embedded as pure Lean functions.

Values stored in channels and legion/function addresses are modelled as
natural numbers.  Each C function that mutates state under the channel
mutex is embedded as a pure function from the pre-state to the post-state,
together with its observable return values.  NULL pointers are modelled
with Option.
-/

/-- State of one Malphas channel (struct Channel in runtime.c): circular
buffer with elem_size and capacity fixed at creation, head/tail/count
counters, closed flag, and the two intrusive park lists of blocked legion
ids (the Lean list head is the C linked-list head). -/
structure ChannelState where
  elemSize : Nat
  capacity : Nat
  buffer : List Nat
  head : Nat
  tail : Nat
  count : Nat
  closed : Bool
  blockedSenders : List Nat
  blockedReceivers : List Nat
  deriving Repr, DecidableEq

/-- Result of a receive call: the call parked or waited without obtaining a
value (blocked), returned the NULL pointer, or returned a value. -/
inductive RecvResult where
  | blocked
  | nullPtr
  | value (v : Nat)
  deriving Repr, DecidableEq

/-- runtime_channel_new: fresh channel.  runtime_alloc (GC_malloc) returns
zeroed memory, so the buffer starts as capacity zeroes. -/
def runtime_channel_new (elem_size capacity : Nat) : ChannelState :=
  { elemSize := elem_size
    capacity := capacity
    buffer := List.replicate capacity 0
    head := 0
    tail := 0
    count := 0
    closed := false
    blockedSenders := []
    blockedReceivers := [] }

/-- Body of runtime_channel_send after the NULL check, for one pass through
the function with the mutex held.  cur is the current legion (none for a
bare OS thread).  If the buffer is full and the channel open, a legion
caller links itself at the head of blocked_senders, blocks and yields (the
later retry is a fresh pass); a bare thread waits on the condition variable
with no state change.  If the channel is closed the value is dropped.
Otherwise the value is copied at tail, tail advances mod capacity, count
increments, and the head of blocked_receivers (if any) is detached to be
unblocked; that woken legion id is returned. -/
def ChannelState.send (ch : ChannelState) (v : Nat) (cur : Option Nat) :
    ChannelState × Option Nat :=
  if ch.count ≥ ch.capacity ∧ ch.closed = false then
    match cur with
    | some l => ({ ch with blockedSenders := l :: ch.blockedSenders }, none)
    | none => (ch, none)
  else if ch.closed = true then (ch, none)
  else
    let ch1 := { ch with
      buffer := ch.buffer.set ch.tail v
      tail := (ch.tail + 1) % ch.capacity
      count := ch.count + 1 }
    match ch.blockedReceivers with
    | [] => (ch1, none)
    | r :: rest => ({ ch1 with blockedReceivers := rest }, some r)

/-- Body of runtime_channel_recv after the NULL check, for one pass with
the mutex held.  Empty and open: a legion caller links itself at the head
of blocked_receivers and blocks (result .blocked); a bare thread waits on
the condition variable.  Empty and closed: returns the NULL pointer.
Otherwise one element is copied out from head, head advances mod capacity,
count decrements, and the head of blocked_senders (if any) is detached to
be unblocked; that woken legion id is the second return component. -/
def ChannelState.recv (ch : ChannelState) (cur : Option Nat) :
    ChannelState × RecvResult × Option Nat :=
  if ch.count = 0 ∧ ch.closed = false then
    match cur with
    | some l =>
        ({ ch with blockedReceivers := l :: ch.blockedReceivers },
         RecvResult.blocked, none)
    | none => (ch, RecvResult.blocked, none)
  else if ch.count = 0 then (ch, RecvResult.nullPtr, none)
  else
    let v := ch.buffer.getD ch.head 0
    let ch1 := { ch with
      head := (ch.head + 1) % ch.capacity
      count := ch.count - 1 }
    match ch.blockedSenders with
    | [] => (ch1, RecvResult.value v, none)
    | s :: rest =>
        ({ ch1 with blockedSenders := rest }, RecvResult.value v, some s)

/-- Body of runtime_channel_try_send after the NULL check: fails on a
closed or full channel, otherwise enqueues at tail.  It never parks and
never detaches a blocked receiver (the C code only signals the condition
variable). -/
def ChannelState.trySend (ch : ChannelState) (v : Nat) : ChannelState × Bool :=
  if ch.closed = true then (ch, false)
  else if ch.count ≥ ch.capacity then (ch, false)
  else
    ({ ch with
        buffer := ch.buffer.set ch.tail v
        tail := (ch.tail + 1) % ch.capacity
        count := ch.count + 1 }, true)

/-- Body of runtime_channel_try_recv after the NULL checks.  The third
component models the out-parameter: none when *value was not written,
some none when NULL was written (closed and empty), some (some v) on
success. -/
def ChannelState.tryRecv (ch : ChannelState) :
    ChannelState × Bool × Option (Option Nat) :=
  if ch.count = 0 ∧ ch.closed = false then (ch, false, none)
  else if ch.count = 0 then (ch, false, some none)
  else
    let v := ch.buffer.getD ch.head 0
    ({ ch with
        head := (ch.head + 1) % ch.capacity
        count := ch.count - 1 }, true, some (some v))

/-- Body of runtime_channel_close after the NULL check: sets the closed
flag (and broadcasts both condition variables, which changes no modelled
state). -/
def ChannelState.closeCh (ch : ChannelState) : ChannelState :=
  { ch with closed := true }

/-- Body of runtime_channel_is_closed after the NULL check: unlocked read
of the closed flag. -/
def ChannelState.isClosed (ch : ChannelState) : Bool :=
  ch.closed

/-- runtime_channel_send including the NULL-channel guard: a NULL channel
returns immediately with no effect and wakes nobody. -/
def runtime_channel_send (ch : Option ChannelState) (v : Nat)
    (cur : Option Nat) : Option ChannelState × Option Nat :=
  match ch with
  | none => (none, none)
  | some c =>
      let r := c.send v cur
      (some r.1, r.2)

/-- runtime_channel_recv including the NULL-channel guard: a NULL channel
returns the NULL pointer immediately. -/
def runtime_channel_recv (ch : Option ChannelState) (cur : Option Nat) :
    Option ChannelState × RecvResult × Option Nat :=
  match ch with
  | none => (none, RecvResult.nullPtr, none)
  | some c =>
      let r := c.recv cur
      (some r.1, r.2)

/-- runtime_channel_try_send including the NULL-channel guard. -/
def runtime_channel_try_send (ch : Option ChannelState) (v : Nat) :
    Option ChannelState × Bool :=
  match ch with
  | none => (none, false)
  | some c =>
      let r := c.trySend v
      (some r.1, r.2)

/-- runtime_channel_try_recv including the NULL guards: on a NULL channel
it returns 0 without writing the out-parameter. -/
def runtime_channel_try_recv (ch : Option ChannelState) :
    Option ChannelState × Bool × Option (Option Nat) :=
  match ch with
  | none => (none, false, none)
  | some c =>
      let r := c.tryRecv
      (some r.1, r.2)

/-- runtime_channel_close including the NULL-channel guard. -/
def runtime_channel_close (ch : Option ChannelState) : Option ChannelState :=
  match ch with
  | none => none
  | some c => some c.closeCh

/-- runtime_channel_is_closed including the NULL-channel guard: a NULL
channel is reported as closed (returns 1). -/
def runtime_channel_is_closed (ch : Option ChannelState) : Bool :=
  match ch with
  | none => true
  | some c => c.isClosed

/-- One channel operation, for quantifying over operation sequences. -/
inductive ChanOp where
  | send (v : Nat) (cur : Option Nat)
  | recv (cur : Option Nat)
  | trySend (v : Nat)
  | tryRecv
  | close
  deriving Repr, DecidableEq

/-- Apply one channel operation to the channel state, discarding the
observable return values. -/
def ChannelState.applyOp (ch : ChannelState) : ChanOp → ChannelState
  | ChanOp.send v cur => (ch.send v cur).1
  | ChanOp.recv cur => (ch.recv cur).1
  | ChanOp.trySend v => (ch.trySend v).1
  | ChanOp.tryRecv => ch.tryRecv.1
  | ChanOp.close => ch.closeCh

/-- cnt consecutive elements of a circular buffer starting at head,
wrapping mod cap. -/
def ringList (buf : List Nat) (head cnt cap : Nat) : List Nat :=
  (List.range cnt).map (fun i => buf.getD ((head + i) % cap) 0)

/-- The abstract FIFO contents of the circular buffer: count elements
starting at head, wrapping mod capacity. -/
def absQ (ch : ChannelState) : List Nat :=
  ringList ch.buffer ch.head ch.count ch.capacity

/-- Structural well-formedness of a channel: positive capacity, count
within capacity, indices within the ring, buffer of the allocated length,
and tail sitting count slots after head (mod capacity). -/
def ChanWF (ch : ChannelState) : Prop :=
  1 ≤ ch.capacity ∧ ch.count ≤ ch.capacity ∧ ch.head < ch.capacity ∧
    ch.tail < ch.capacity ∧ ch.buffer.length = ch.capacity ∧
    ch.tail = (ch.head + ch.count) % ch.capacity

instance (ch : ChannelState) : Decidable (ChanWF ch) := by
  unfold ChanWF
  infer_instance

/-- The invariant claimed in the specification (I2/P1): count bounded by
capacity, indices within the ring, and the circular-distance equation when
the buffer is not full. -/
def chanClaimInv (ch : ChannelState) : Prop :=
  ch.count ≤ ch.capacity ∧ ch.head < ch.capacity ∧ ch.tail < ch.capacity ∧
    (ch.count ≠ ch.capacity →
      (ch.tail + ch.capacity - ch.head) % ch.capacity = ch.count)

instance (ch : ChannelState) : Decidable (chanClaimInv ch) := by
  unfold chanClaimInv
  infer_instance

/-! ## Scheduler: per-worker run queues (runtime.c lines 1064-1322) -/

/-- LEGION_QUEUE_SIZE in runtime.c. -/
def LEGION_QUEUE_SIZE : Nat := 256

/-- MAX_OS_THREADS in runtime.c. -/
def MAX_OS_THREADS : Nat := 4

/-- One per-worker run queue: the 256-slot ring and its atomic head and
tail indices.  Slots hold legion ids. -/
structure RunQueue where
  slots : List Nat
  head : Nat
  tail : Nat
  deriving Repr, DecidableEq

/-- Scheduler state relevant to submission: the four run queues and the
active_legions counter. -/
structure SchedState where
  queues : Fin 4 → RunQueue
  activeLegions : Nat

/-- get_queue_length: approximate queue length from the head and tail
snapshots. -/
def get_queue_length (q : RunQueue) : Nat :=
  if q.tail ≥ q.head then q.tail - q.head
  else (LEGION_QUEUE_SIZE - q.head) + q.tail

/-- find_least_loaded_thread: linear scan keeping the first index of
minimal length, exactly as the C loop over threads 1..3 starting from
best_thread = 0. -/
def find_least_loaded_thread (s : SchedState) : Fin 4 :=
  let pick : Fin 4 → Fin 4 → Fin 4 := fun best i =>
    if get_queue_length (s.queues i) < get_queue_length (s.queues best)
    then i else best
  pick (pick (pick 0 1) 2) 3

/-- push_to_local_queue: fails when advancing tail would collide with
head, else writes the slot at tail and publishes the advanced tail. -/
def push_to_local_queue (q : RunQueue) (l : Nat) : RunQueue × Bool :=
  let next_tail := (q.tail + 1) % LEGION_QUEUE_SIZE
  if next_tail = q.head then (q, false)
  else ({ q with slots := q.slots.set q.tail l, tail := next_tail }, true)

/-- runtime_legion_start (scheduler present, legion non-NULL):
increments active_legions, picks the least-loaded worker, tries the
lock-free push, and on failure retries once under the queue mutex; if the
queue is still full the legion is not stored anywhere. -/
def runtime_legion_start (s : SchedState) (l : Nat) : SchedState :=
  let s1 : SchedState := { s with activeLegions := s.activeLegions + 1 }
  let i := find_least_loaded_thread s1
  let q := s1.queues i
  let p := push_to_local_queue q l
  if p.2 then { s1 with queues := Function.update s1.queues i p.1 }
  else
    let next_tail := (q.tail + 1) % LEGION_QUEUE_SIZE
    if next_tail ≠ q.head then
      let q1 : RunQueue :=
        { q with slots := q.slots.set q.tail l, tail := next_tail }
      { s1 with queues := Function.update s1.queues i q1 }
    else s1

/-- The legions currently queued in a run queue: the slots from head up to
(but excluding) tail, in pop order. -/
def queueElems (q : RunQueue) : List Nat :=
  (List.range (get_queue_length q)).map
    (fun k => q.slots.getD ((q.head + k) % LEGION_QUEUE_SIZE) 0)

/-- A legion id is present in the run queue of some worker. -/
def legionOnSomeQueue (s : SchedState) (l : Nat) : Prop :=
  ∃ i : Fin 4, l ∈ queueElems (s.queues i)

instance (s : SchedState) (l : Nat) : Decidable (legionOnSomeQueue s l) := by
  unfold legionOnSomeQueue
  infer_instance

/-- The snapshot phase of pop_from_local_queue: the owner loads head and
tail; if they differ it reads the slot at head.  Returns the observed head
and the slot value. -/
def popLocalSnapshot (q : RunQueue) : Option (Nat × Nat) :=
  if q.head = q.tail then none
  else some (q.head, q.slots.getD q.head 0)

/-- The commit phase of pop_from_local_queue: the owner unconditionally
atomic_stores head := observed head + 1 mod size.  There is no
compare-and-swap in this function. -/
def popLocalCommit (observedHead : Nat) (q : RunQueue) : RunQueue :=
  { q with head := (observedHead + 1) % LEGION_QUEUE_SIZE }

/-- pop_from_local_queue run without interference: snapshot then commit. -/
def pop_from_local_queue (q : RunQueue) : RunQueue × Option Nat :=
  match popLocalSnapshot q with
  | none => (q, none)
  | some hv => (popLocalCommit hv.1 q, some hv.2)

/-- steal_from_queue run as one atomic step: loads head and tail, and on a
non-empty queue performs the compare-and-swap of head (which succeeds here
because nothing intervened between its own load and its CAS), returning
the slot at the loaded head. -/
def steal_from_queue (q : RunQueue) : RunQueue × Option Nat :=
  if q.head = q.tail then (q, none)
  else ({ q with head := (q.head + 1) % LEGION_QUEUE_SIZE },
        some (q.slots.getD q.head 0))

/-! ## Legion spawn and unblock (runtime.c lines 1147-1513) -/

/-- LEGION_STACK_SIZE in runtime.c: 256 KiB. -/
def LEGION_STACK_SIZE : Nat := 256 * 1024

/-- LEGION_STACK_MAX in runtime.c: 2 MiB. -/
def LEGION_STACK_MAX : Nat := 2 * 1024 * 1024

/-- Legion states (enum LegionState in runtime.c). -/
inductive LegState where
  | runnable
  | running
  | blocked
  | dead
  deriving Repr, DecidableEq

/-- The x86-64 context record (struct Context): callee-saved registers,
stack pointer, and the instruction-pointer slot used for fresh contexts. -/
structure Context where
  rbx : Nat
  rbp : Nat
  r12 : Nat
  r13 : Nat
  r14 : Nat
  r15 : Nat
  rsp : Nat
  rip : Nat
  deriving Repr, DecidableEq

/-- malphas_context_make_trampoline: zeroes the context, aligns the top of
stack down to 16 bytes, reserves 8 bytes, and stores the trampoline
address as rip, the argument in rbx and the function in r12. -/
def malphas_context_make_trampoline (tramp fn arg stack_base stack_size : Nat) :
    Context :=
  let sp := (stack_base + stack_size) - (stack_base + stack_size) % 16
  { rbx := arg
    rbp := 0
    r12 := fn
    r13 := 0
    r14 := 0
    r15 := 0
    rsp := sp - 8
    rip := tramp }

/-- A freshly spawned legion, with the fields runtime_legion_spawn
fills in.  Pointer-valued fields (fn, arg, the legion itself, its stack
base, the trampoline) are abstract addresses supplied by the caller. -/
structure SpawnedLegion where
  fn : Nat
  arg : Nat
  stackSize : Nat
  stackCap : Nat
  state : LegState
  next : Option Nat
  threadId : Int
  blockedOn : Option Nat
  ctx : Context
  deriving Repr, DecidableEq

/-- The stack-size adjustment at the top of runtime_legion_spawn: a zero
request becomes LEGION_STACK_SIZE, a request above LEGION_STACK_MAX is
lowered to LEGION_STACK_MAX, and every other request is used as given. -/
def spawnStackSize (stack_size : Nat) : Nat :=
  let s := if stack_size = 0 then LEGION_STACK_SIZE else stack_size
  if s > LEGION_STACK_MAX then LEGION_STACK_MAX else s

/-- runtime_legion_spawn: builds the legion record in RUNNABLE state with
thread_id -1, no parked linkage, no blocked channel, and a fresh context
made through the trampoline over its own stack. -/
def runtime_legion_spawn (fn arg stack_size stack_base selfAddr tramp entry :
    Nat) : SpawnedLegion :=
  let size := spawnStackSize stack_size
  { fn := fn
    arg := arg
    stackSize := size
    stackCap := size
    state := LegState.runnable
    next := none
    threadId := -1
    blockedOn := none
    ctx := malphas_context_make_trampoline tramp entry selfAddr stack_base size }

/-- The legion fields runtime_legion_unblock reads and writes. -/
structure LegionRec where
  state : LegState
  blockedOn : Option Nat
  deriving Repr, DecidableEq

/-- unblock_legion_from_channel: a no-op unless the legion is BLOCKED;
otherwise marks it RUNNABLE, clears blocked_on, increments active_legions
and re-submits it through runtime_legion_start (which increments
active_legions again). -/
def unblock_legion_from_channel (s : SchedState) (leg : LegionRec)
    (lid : Nat) : SchedState × LegionRec :=
  if leg.state ≠ LegState.blocked then (s, leg)
  else
    let leg1 : LegionRec := { state := LegState.runnable, blockedOn := none }
    (runtime_legion_start
       { s with activeLegions := s.activeLegions + 1 } lid, leg1)

/-- runtime_legion_unblock: same body as unblock_legion_from_channel. -/
def runtime_legion_unblock (s : SchedState) (leg : LegionRec)
    (lid : Nat) : SchedState × LegionRec :=
  if leg.state ≠ LegState.blocked then (s, leg)
  else
    let leg1 : LegionRec := { state := LegState.runnable, blockedOn := none }
    (runtime_legion_start
       { s with activeLegions := s.activeLegions + 1 } lid, leg1)

/-! ## Single-producer single-consumer execution harness (for P5/FIFO) -/

/-- State of the single-sender single-receiver scenario: the channel, how
many sends have completed, and the values received so far. -/
structure SpscState where
  ch : ChannelState
  sent : Nat
  received : List Nat
  deriving Repr, DecidableEq

/-- Initial SPSC state over a fresh channel. -/
def spscInit (elem_size capacity : Nat) : SpscState :=
  { ch := runtime_channel_new elem_size capacity, sent := 0, received := [] }

/-- One scheduler step of the SPSC scenario.  true: the sender attempts
its next send (it completes exactly when the channel has space, which is
when ChannelState.send takes its enqueue branch; otherwise it stays
pending with no effect).  false: the receiver attempts a receive, which
completes exactly when ChannelState.recv returns a value. -/
def spscStep (vs : List Nat) (s : SpscState) (who : Bool) : SpscState :=
  if who then
    if s.sent < vs.length then
      if s.ch.count < s.ch.capacity ∧ s.ch.closed = false then
        { s with
            ch := (s.ch.send (vs.getD s.sent 0) none).1
            sent := s.sent + 1 }
      else s
    else s
  else
    match (s.ch.recv none).2.1 with
    | RecvResult.value v =>
        { s with ch := (s.ch.recv none).1, received := s.received ++ [v] }
    | _ => s

/-- Run the SPSC scenario under an arbitrary interleaving schedule. -/
def spscRun (elem_size capacity : Nat) (vs : List Nat) (sched : List Bool) :
    SpscState :=
  sched.foldl (spscStep vs) (spscInit elem_size capacity)

/-- Repeated runtime_channel_recv calls (as from a draining receiver):
performs n receives, collecting values in arrival order, stopping early if
a receive does not produce a value. -/
def recvDrain : ChannelState → Nat → ChannelState × List Nat
  | ch, 0 => (ch, [])
  | ch, Nat.succ n =>
      match (ch.recv none).2.1 with
      | RecvResult.value v =>
          ((recvDrain (ch.recv none).1 n).1,
           v :: (recvDrain (ch.recv none).1 n).2)
      | _ => ((ch.recv none).1, [])

/-! ## Channel invariant preservation (C2) -/

theorem chanWF_enqueue (ch : ChannelState) (v : Nat) (h : ChanWF ch)
    (hlt : ch.count < ch.capacity) :
    ChanWF { ch with
      buffer := ch.buffer.set ch.tail v
      tail := (ch.tail + 1) % ch.capacity
      count := ch.count + 1 } := by
  obtain ⟨h1, h2, h3, h4, h5, h6⟩ := h
  refine ⟨h1, hlt, h3, Nat.mod_lt _ h1, ?_, ?_⟩
  · simpa using h5
  · show (ch.tail + 1) % ch.capacity = (ch.head + (ch.count + 1)) % ch.capacity
    rw [h6, Nat.mod_add_mod, Nat.add_assoc]

theorem chanWF_dequeue (ch : ChannelState) (h : ChanWF ch)
    (hpos : 0 < ch.count) :
    ChanWF { ch with
      head := (ch.head + 1) % ch.capacity
      count := ch.count - 1 } := by
  obtain ⟨h1, h2, h3, h4, h5, h6⟩ := h
  refine ⟨h1, Nat.le_trans (Nat.sub_le _ _) h2, Nat.mod_lt _ h1, h4, h5, ?_⟩
  show ch.tail = ((ch.head + 1) % ch.capacity + (ch.count - 1)) % ch.capacity
  rw [Nat.mod_add_mod, h6]
  congr 1
  omega

theorem chanWF_applyOp (ch : ChannelState) (op : ChanOp) (h : ChanWF ch) :
    ChanWF (ch.applyOp op) := by
  cases op with
  | send v cur =>
      show ChanWF (ch.send v cur).1
      unfold ChannelState.send
      by_cases hful : ch.count ≥ ch.capacity ∧ ch.closed = false
      · rw [if_pos hful]
        cases cur <;> simpa [ChanWF] using h
      · rw [if_neg hful]
        by_cases hcl : ch.closed = true
        · rw [if_pos hcl]
          exact h
        · rw [if_neg hcl]
          have hcf : ch.closed = false := by
            cases hb : ch.closed
            · rfl
            · exact absurd hb hcl
          have hlt : ch.count < ch.capacity := by
            by_contra hge
            exact hful ⟨Nat.le_of_not_lt hge, hcf⟩
          cases hbr : ch.blockedReceivers with
          | nil => simpa [ChanWF] using chanWF_enqueue ch v h hlt
          | cons r rest => simpa [ChanWF] using chanWF_enqueue ch v h hlt
  | recv cur =>
      show ChanWF (ch.recv cur).1
      unfold ChannelState.recv
      by_cases hemp : ch.count = 0 ∧ ch.closed = false
      · rw [if_pos hemp]
        cases cur <;> simpa [ChanWF] using h
      · rw [if_neg hemp]
        by_cases hz : ch.count = 0
        · rw [if_pos hz]
          exact h
        · rw [if_neg hz]
          have hpos : 0 < ch.count := Nat.pos_of_ne_zero hz
          cases hbs : ch.blockedSenders with
          | nil => simpa [ChanWF] using chanWF_dequeue ch h hpos
          | cons s rest => simpa [ChanWF] using chanWF_dequeue ch h hpos
  | trySend v =>
      show ChanWF (ch.trySend v).1
      unfold ChannelState.trySend
      by_cases hcl : ch.closed = true
      · rw [if_pos hcl]
        exact h
      · rw [if_neg hcl]
        by_cases hful : ch.count ≥ ch.capacity
        · rw [if_pos hful]
          exact h
        · rw [if_neg hful]
          simpa [ChanWF] using chanWF_enqueue ch v h (Nat.lt_of_not_le hful)
  | tryRecv =>
      show ChanWF ch.tryRecv.1
      unfold ChannelState.tryRecv
      by_cases hemp : ch.count = 0 ∧ ch.closed = false
      · rw [if_pos hemp]
        exact h
      · rw [if_neg hemp]
        by_cases hz : ch.count = 0
        · rw [if_pos hz]
          exact h
        · rw [if_neg hz]
          simpa [ChanWF] using chanWF_dequeue ch h (Nat.pos_of_ne_zero hz)
  | close =>
      show ChanWF ch.closeCh
      simpa [ChanWF, ChannelState.closeCh] using h

theorem chanWF_new (E C : Nat) (hC : 1 ≤ C) :
    ChanWF (runtime_channel_new E C) := by
  unfold ChanWF runtime_channel_new
  exact ⟨hC, Nat.zero_le _, hC, hC, by simp, by simp⟩

theorem chanWF_run (ch : ChannelState) (ops : List ChanOp) (h : ChanWF ch) :
    ChanWF (ops.foldl ChannelState.applyOp ch) := by
  induction ops generalizing ch with
  | nil => exact h
  | cons op rest ih => exact ih _ (chanWF_applyOp ch op h)

theorem chanClaimInv_of_chanWF (ch : ChannelState) (h : ChanWF ch) :
    chanClaimInv ch := by
  obtain ⟨h1, h2, h3, h4, h5, h6⟩ := h
  refine ⟨h2, h3, h4, fun hne => ?_⟩
  rw [h6]
  have e1 : (ch.head + ch.count) % ch.capacity + ch.capacity - ch.head
      = (ch.head + ch.count) % ch.capacity + (ch.capacity - ch.head) := by
    omega
  rw [e1, Nat.mod_add_mod]
  have e2 : ch.head + ch.count + (ch.capacity - ch.head)
      = ch.count + ch.capacity := by
    omega
  rw [e2, Nat.add_mod_right]
  exact Nat.mod_eq_of_lt (by omega)

/-- C2: starting from a fresh channel of capacity C (C at least 1, the
creation contract), after every sequence of send, recv, try_send, try_recv
and close operations the channel satisfies count bounded by C (count is a
natural number, hence nonnegative), head and tail strictly below C, and
the circular-distance equation (tail - head + C) mod C = count whenever
count differs from C. -/
theorem channel_counter_invariant_holds (E C : Nat) (hC : 1 ≤ C)
    (ops : List ChanOp) :
    chanClaimInv (ops.foldl ChannelState.applyOp (runtime_channel_new E C)) :=
  chanClaimInv_of_chanWF _ (chanWF_run _ ops (chanWF_new E C hC))

/-- Witness for C2 at capacity 1 with a concrete operation sequence. -/
theorem channel_counter_invariant_holds_witness :
    1 ≤ 1 ∧ chanClaimInv
      ([ChanOp.send 5 none, ChanOp.trySend 7, ChanOp.recv none,
        ChanOp.tryRecv, ChanOp.close].foldl ChannelState.applyOp
        (runtime_channel_new 8 1)) :=
  ⟨by decide, channel_counter_invariant_holds 8 1 (by decide) _⟩

/-! ## FIFO abstraction lemmas (C3, C4) -/

theorem ringList_length (buf : List Nat) (head cnt cap : Nat) :
    (ringList buf head cnt cap).length = cnt := by
  simp [ringList]

theorem ringList_set_out (buf : List Nat) (head cnt cap tail v : Nat)
    (hhead : head < cap) (hcnt : cnt < cap) (hlen : buf.length = cap)
    (htail : tail = (head + cnt) % cap) :
    ringList (buf.set tail v) head cnt cap = ringList buf head cnt cap := by
  unfold ringList
  apply List.map_congr_left
  intro i hi
  rw [List.mem_range] at hi
  have hne : tail ≠ (head + i) % cap := by
    rw [htail]
    intro heq
    have hmod : cnt % cap = i % cap :=
      Nat.ModEq.add_left_cancel' head heq
    rw [Nat.mod_eq_of_lt hcnt, Nat.mod_eq_of_lt (lt_trans hi hcnt)] at hmod
    omega
  simp [List.getD_eq_getElem?_getD, List.getElem?_set_ne hne]

theorem ringList_enqueue (buf : List Nat) (head cnt cap tail v : Nat)
    (hcap : 0 < cap) (hhead : head < cap) (hcnt : cnt < cap)
    (hlen : buf.length = cap) (htail : tail = (head + cnt) % cap) :
    ringList (buf.set tail v) head (cnt + 1) cap
      = ringList buf head cnt cap ++ [v] := by
  unfold ringList
  rw [List.range_succ, List.map_append]
  congr 1
  · exact ringList_set_out buf head cnt cap tail v hhead hcnt hlen htail
  · have htl : tail < buf.length := by
      rw [hlen, htail]
      exact Nat.mod_lt _ hcap
    simp only [List.map_cons, List.map_nil, ← htail]
    rw [List.getD_eq_getElem?_getD]
    simp [List.getElem?_set_self, htl]

theorem ringList_dequeue (buf : List Nat) (head cnt cap : Nat)
    (hhead : head < cap) (hpos : 0 < cnt) :
    ringList buf head cnt cap
      = buf.getD head 0 :: ringList buf ((head + 1) % cap) (cnt - 1) cap := by
  obtain ⟨n, hn⟩ : ∃ n, cnt = n + 1 := ⟨cnt - 1, by omega⟩
  subst hn
  unfold ringList
  rw [List.range_succ_eq_map, List.map_cons, List.map_map]
  simp only [Nat.add_sub_cancel]
  congr 1
  · simp [Nat.mod_eq_of_lt hhead]
  · apply List.map_congr_left
    intro i hi
    show buf.getD ((head + (i + 1)) % cap) 0
        = buf.getD (((head + 1) % cap + i) % cap) 0
    rw [Nat.mod_add_mod]
    congr 2
    omega

theorem send_success (ch : ChannelState) (v : Nat) (cur : Option Nat)
    (h : ChanWF ch) (hlt : ch.count < ch.capacity) (hcl : ch.closed = false) :
    absQ (ch.send v cur).1 = absQ ch ++ [v]
    ∧ ChanWF (ch.send v cur).1
    ∧ (ch.send v cur).1.capacity = ch.capacity
    ∧ (ch.send v cur).1.closed = false
    ∧ (ch.send v cur).1.count = ch.count + 1 := by
  obtain ⟨h1, h2, h3, h4, h5, h6⟩ := h
  have hWF : ChanWF ch := ⟨h1, h2, h3, h4, h5, h6⟩
  have henq := ringList_enqueue ch.buffer ch.head ch.count ch.capacity
    ch.tail v h1 h3 hlt h5 h6
  have hwf1 := chanWF_enqueue ch v hWF hlt
  unfold ChannelState.send
  rw [if_neg (fun hc => absurd hc.1 (Nat.not_le_of_lt hlt)),
    if_neg (by simp [hcl])]
  cases hbr : ch.blockedReceivers with
  | nil => exact ⟨henq, hwf1, rfl, hcl, rfl⟩
  | cons r rest =>
      exact ⟨henq, by simpa [ChanWF] using hwf1, rfl, hcl, rfl⟩

theorem recv_success (ch : ChannelState) (cur : Option Nat)
    (h : ChanWF ch) (hpos : 0 < ch.count) :
    (ch.recv cur).2.1 = RecvResult.value (ch.buffer.getD ch.head 0)
    ∧ absQ ch = ch.buffer.getD ch.head 0 :: absQ (ch.recv cur).1
    ∧ ChanWF (ch.recv cur).1
    ∧ (ch.recv cur).1.capacity = ch.capacity
    ∧ (ch.recv cur).1.closed = ch.closed
    ∧ (ch.recv cur).1.count = ch.count - 1 := by
  obtain ⟨h1, h2, h3, h4, h5, h6⟩ := h
  have hWF : ChanWF ch := ⟨h1, h2, h3, h4, h5, h6⟩
  have hdeq := ringList_dequeue ch.buffer ch.head ch.count ch.capacity h3 hpos
  have hwf1 := chanWF_dequeue ch hWF hpos
  unfold ChannelState.recv
  rw [if_neg (fun hc => absurd hc.1 (Nat.pos_iff_ne_zero.mp hpos)),
    if_neg (Nat.pos_iff_ne_zero.mp hpos)]
  cases hbs : ch.blockedSenders with
  | nil => exact ⟨rfl, hdeq, hwf1, rfl, rfl, rfl⟩
  | cons s rest =>
      exact ⟨rfl, hdeq, by simpa [ChanWF] using hwf1, rfl, rfl, rfl⟩

theorem recv_blocked_of_empty (ch : ChannelState) (hz : ch.count = 0)
    (hcl : ch.closed = false) :
    (ch.recv none).2.1 = RecvResult.blocked ∧ (ch.recv none).1 = ch := by
  unfold ChannelState.recv
  rw [if_pos ⟨hz, hcl⟩]
  exact ⟨rfl, rfl⟩

/-! ## The SPSC round-trip invariant (C3) -/

theorem take_succ_getD (l : List Nat) (n : Nat) (h : n < l.length) :
    l.take (n + 1) = l.take n ++ [l.getD n 0] := by
  rw [List.take_succ]
  simp [List.getElem?_eq_getElem h, List.getD_eq_getElem?_getD]

/-- Invariant of the SPSC run: a well-formed open channel whose abstract
buffer contents are exactly the sent-but-not-yet-received values. -/
def spscInv (vs : List Nat) (s : SpscState) : Prop :=
  ChanWF s.ch ∧ s.ch.closed = false ∧ s.sent ≤ vs.length ∧
    s.received ++ absQ s.ch = vs.take s.sent

theorem spscInv_step (vs : List Nat) (s : SpscState) (who : Bool)
    (h : spscInv vs s) : spscInv vs (spscStep vs s who) := by
  obtain ⟨hWF, hcl, hsent, habs⟩ := h
  cases who with
  | true =>
      show spscInv vs (spscStep vs s true)
      unfold spscStep
      simp only [if_true]
      by_cases h1 : s.sent < vs.length
      · rw [if_pos h1]
        by_cases h2 : s.ch.count < s.ch.capacity ∧ s.ch.closed = false
        · rw [if_pos h2]
          obtain ⟨habs1, hWF1, hcap1, hcl1, hcnt1⟩ :=
            send_success s.ch (vs.getD s.sent 0) none hWF h2.1 h2.2
          refine ⟨hWF1, hcl1, h1, ?_⟩
          show s.received ++ absQ (s.ch.send (vs.getD s.sent 0) none).1
              = vs.take (s.sent + 1)
          rw [habs1, ← List.append_assoc, habs, take_succ_getD vs s.sent h1]
        · rw [if_neg h2]
          exact ⟨hWF, hcl, hsent, habs⟩
      · rw [if_neg h1]
        exact ⟨hWF, hcl, hsent, habs⟩
  | false =>
      show spscInv vs (spscStep vs s false)
      unfold spscStep
      simp only [Bool.false_eq_true, if_false]
      by_cases h2 : 0 < s.ch.count
      · obtain ⟨hval, habs1, hWF1, hcap1, hcl1, hcnt1⟩ :=
          recv_success s.ch none hWF h2
        rw [hval]
        refine ⟨hWF1, by rw [hcl1]; exact hcl, hsent, ?_⟩
        show s.received ++ [s.ch.buffer.getD s.ch.head 0]
            ++ absQ (s.ch.recv none).1 = vs.take s.sent
        rw [List.append_assoc]
        simpa [habs1] using habs
      · have hz : s.ch.count = 0 := by omega
        obtain ⟨hblk, hst⟩ := recv_blocked_of_empty s.ch hz hcl
        rw [hblk]
        exact ⟨hWF, hcl, hsent, habs⟩

theorem spscInv_run (vs : List Nat) (sched : List Bool) (s : SpscState)
    (h : spscInv vs s) : spscInv vs (sched.foldl (spscStep vs) s) := by
  induction sched generalizing s with
  | nil => exact h
  | cons b rest ih => exact ih _ (spscInv_step vs s b h)

/-- C3: on a channel of capacity at least 1, a single sender sending
v_0..v_{n-1} in order and a single receiver receiving, under any
interleaving, the receiver that has obtained n values has obtained exactly
v_0..v_{n-1} in order: the buffer is FIFO (send writes at tail and
advances tail, recv reads at head and advances head). -/
theorem spsc_round_trip (E C : Nat) (hC : 1 ≤ C) (vs : List Nat)
    (sched : List Bool)
    (hall : (spscRun E C vs sched).received.length = vs.length) :
    (spscRun E C vs sched).received = vs := by
  have h0 : spscInv vs (spscInit E C) := by
    refine ⟨chanWF_new E C hC, rfl, Nat.zero_le _, ?_⟩
    simp [spscInit, absQ, ringList, runtime_channel_new]
  have hinv : spscInv vs (spscRun E C vs sched) :=
    spscInv_run vs sched _ h0
  obtain ⟨hWF, hcl, hsent, habs⟩ := hinv
  set s := spscRun E C vs sched
  have hlen := congrArg List.length habs
  rw [List.length_append, List.length_take] at hlen
  have habsl : (absQ s.ch).length = s.ch.count := ringList_length _ _ _ _
  have hcnt : s.ch.count = 0 := by omega
  have hnil : absQ s.ch = [] := List.eq_nil_of_length_eq_zero (by omega)
  have hsfull : s.sent = vs.length := by omega
  rw [hnil, List.append_nil, hsfull, List.take_length] at habs
  exact habs

/-- Witness for C3: capacity 1, values 3 and 5, strict alternation. -/
theorem spsc_round_trip_witness :
    1 ≤ 1
    ∧ (spscRun 8 1 [3, 5] [true, false, true, false]).received.length
        = [3, 5].length
    ∧ (spscRun 8 1 [3, 5] [true, false, true, false]).received = [3, 5] :=
  ⟨by decide, by decide, spsc_round_trip 8 1 (by decide) [3, 5] _ (by decide)⟩

/-! ## Close semantics (C4, C5) -/

theorem closed_stays_closed (ch : ChannelState) (hcl : ch.closed = true)
    (op : ChanOp) : (ch.applyOp op).closed = true := by
  cases op with
  | send v cur =>
      show (ch.send v cur).1.closed = true
      unfold ChannelState.send
      rw [if_neg (by simp [hcl]), if_pos hcl]
      exact hcl
  | recv cur =>
      show (ch.recv cur).1.closed = true
      unfold ChannelState.recv
      rw [if_neg (by simp [hcl])]
      by_cases hz : ch.count = 0
      · rw [if_pos hz]
        exact hcl
      · rw [if_neg hz]
        cases ch.blockedSenders <;> exact hcl
  | trySend v =>
      show (ch.trySend v).1.closed = true
      unfold ChannelState.trySend
      rw [if_pos hcl]
      exact hcl
  | tryRecv =>
      show ch.tryRecv.1.closed = true
      unfold ChannelState.tryRecv
      rw [if_neg (by simp [hcl])]
      by_cases hz : ch.count = 0
      · rw [if_pos hz]
        exact hcl
      · rw [if_neg hz]
        exact hcl
  | close =>
      show ch.closeCh.closed = true
      rfl

theorem recvDrain_closed (n : Nat) : ∀ ch : ChannelState, ChanWF ch →
    ch.closed = true → ch.count = n →
    (recvDrain ch n).2 = absQ ch
    ∧ ChanWF (recvDrain ch n).1
    ∧ (recvDrain ch n).1.count = 0
    ∧ (recvDrain ch n).1.closed = true := by
  induction n with
  | zero =>
      intro ch hWF hcl hcnt
      refine ⟨?_, hWF, hcnt, hcl⟩
      simp [recvDrain, absQ, ringList, hcnt]
  | succ n ih =>
      intro ch hWF hcl hcnt
      have hpos : 0 < ch.count := by omega
      obtain ⟨hval, habs1, hWF1, hcap1, hcl1, hcnt1⟩ :=
        recv_success ch none hWF hpos
      obtain ⟨ihd, ihWF, ihcnt, ihcl⟩ :=
        ih (ch.recv none).1 hWF1 (by rw [hcl1]; exact hcl) (by omega)
      show (recvDrain ch (n + 1)).2 = absQ ch
        ∧ ChanWF (recvDrain ch (n + 1)).1
        ∧ (recvDrain ch (n + 1)).1.count = 0
        ∧ (recvDrain ch (n + 1)).1.closed = true
      unfold recvDrain
      rw [hval]
      exact ⟨by rw [habs1, ihd], ihWF, ihcnt, ihcl⟩

/-- C4: on a closed well-formed channel, repeated receives first drain the
remaining buffered values in FIFO order (the abstract queue contents), and
once the buffer is empty every further receive returns the NULL sentinel
without blocking and without changing the channel; moreover the closed
flag, once set, is never cleared by any channel operation. -/
theorem closed_channel_drains_then_null (ch : ChannelState)
    (hWF : ChanWF ch) (hcl : ch.closed = true) :
    (recvDrain ch ch.count).2 = absQ ch
    ∧ (∀ cur, ((recvDrain ch ch.count).1.recv cur).2.1 = RecvResult.nullPtr
        ∧ ((recvDrain ch ch.count).1.recv cur).1 = (recvDrain ch ch.count).1)
    ∧ (∀ ch2 : ChannelState, ch2.closed = true →
        ∀ op : ChanOp, (ch2.applyOp op).closed = true) := by
  obtain ⟨hd, hWFd, hcnt0, hcld⟩ := recvDrain_closed ch.count ch hWF hcl rfl
  refine ⟨hd, fun cur => ?_, closed_stays_closed⟩
  unfold ChannelState.recv
  rw [if_neg (by simp [hcld]), if_pos hcnt0]
  exact ⟨rfl, rfl⟩

/-- Concrete closed channel holding 7 then 9, used as the C4 witness. -/
def chClosedTwo : ChannelState :=
  { elemSize := 8
    capacity := 2
    buffer := [7, 9]
    head := 0
    tail := 0
    count := 2
    closed := true
    blockedSenders := []
    blockedReceivers := [] }

/-- Witness for C4: draining the concrete closed channel yields 7 then 9,
after which a receive returns the NULL sentinel. -/
theorem closed_channel_drains_then_null_witness :
    ChanWF chClosedTwo ∧ chClosedTwo.closed = true
    ∧ (recvDrain chClosedTwo chClosedTwo.count).2 = [7, 9]
    ∧ ((recvDrain chClosedTwo chClosedTwo.count).1.recv none).2.1
        = RecvResult.nullPtr :=
  ⟨by decide, rfl,
   ((closed_channel_drains_then_null chClosedTwo (by decide) rfl).1).trans
     (by decide),
   (((closed_channel_drains_then_null chClosedTwo (by decide) rfl).2.1)
     none).1⟩

/-- C5: runtime_channel_send on a closed channel returns without error and
with the channel in exactly its prior state: count, head, tail, the buffer
contents, both park lists and the closed flag are unchanged, and no legion
is woken; the value is silently dropped, never enqueued. -/
theorem send_on_closed_is_noop (ch : ChannelState) (v : Nat)
    (cur : Option Nat) (hcl : ch.closed = true) :
    ch.send v cur = (ch, none) := by
  unfold ChannelState.send
  rw [if_neg (by simp [hcl]), if_pos hcl]

/-- Concrete closed channel used as the C5 witness. -/
def chClosedOne : ChannelState :=
  { elemSize := 8
    capacity := 1
    buffer := [5]
    head := 0
    tail := 0
    count := 1
    closed := true
    blockedSenders := []
    blockedReceivers := [] }

/-- Witness for C5 on a concrete closed channel. -/
theorem send_on_closed_is_noop_witness :
    chClosedOne.closed = true ∧ chClosedOne.send 7 none = (chClosedOne, none) :=
  ⟨rfl, send_on_closed_is_noop chClosedOne 7 none rfl⟩

/-! ## Park-list discipline (C7) and NULL-channel totality (C9) -/

/-- C7: channel park lists behave as LIFO stacks.  A legion blocking in
send is linked at the head of blocked_senders and a legion blocking in
recv at the head of blocked_receivers; a receive that dequeues a value
detaches and wakes exactly the head of blocked_senders, and a send that
enqueues detaches and wakes exactly the head of blocked_receivers, so the
legion woken is always the most recently parked one. -/
theorem park_lists_are_lifo :
    (∀ (ch : ChannelState) (l v : Nat), ch.capacity ≤ ch.count →
      ch.closed = false →
      (ch.send v (some l)).1.blockedSenders = l :: ch.blockedSenders)
    ∧ (∀ (ch : ChannelState) (l : Nat), ch.count = 0 → ch.closed = false →
      (ch.recv (some l)).1.blockedReceivers = l :: ch.blockedReceivers)
    ∧ (∀ (ch : ChannelState) (cur : Option Nat) (s : Nat) (rest : List Nat),
      0 < ch.count → ch.blockedSenders = s :: rest →
      (ch.recv cur).2.2 = some s ∧ (ch.recv cur).1.blockedSenders = rest)
    ∧ (∀ (ch : ChannelState) (cur : Option Nat) (v r : Nat)
        (rest : List Nat),
      ch.count < ch.capacity → ch.closed = false →
      ch.blockedReceivers = r :: rest →
      (ch.send v cur).2 = some r ∧
        (ch.send v cur).1.blockedReceivers = rest) := by
  refine ⟨fun ch l v hge hcl => ?_, fun ch l hz hcl => ?_,
    fun ch cur s rest hpos hbs => ?_, fun ch cur v r rest hlt hcl hbr => ?_⟩
  · unfold ChannelState.send
    rw [if_pos ⟨hge, hcl⟩]
  · unfold ChannelState.recv
    rw [if_pos ⟨hz, hcl⟩]
  · unfold ChannelState.recv
    rw [if_neg (fun hc => absurd hc.1 (Nat.pos_iff_ne_zero.mp hpos)),
      if_neg (Nat.pos_iff_ne_zero.mp hpos)]
    rw [hbs]
    exact ⟨rfl, rfl⟩
  · unfold ChannelState.send
    rw [if_neg (fun hc => absurd hc.1 (Nat.not_le_of_lt hlt)),
      if_neg (by simp [hcl])]
    rw [hbr]
    exact ⟨rfl, rfl⟩

/-- Concrete full capacity-1 channel with legion 4 already parked as a
sender, used by the C7 witness. -/
def chFullParked : ChannelState :=
  { elemSize := 8
    capacity := 1
    buffer := [5]
    head := 0
    tail := 0
    count := 1
    closed := false
    blockedSenders := [4]
    blockedReceivers := [] }

/-- Witness for C7: legion 6 blocking on the full channel is pushed in
front of the earlier-parked legion 4, and a receive then wakes legion 6,
the most recently parked sender. -/
theorem park_lists_are_lifo_witness :
    (chFullParked.send 9 (some 6)).1.blockedSenders = [6, 4]
    ∧ ((chFullParked.send 9 (some 6)).1.recv none).2.2 = some 6 :=
  ⟨park_lists_are_lifo.1 chFullParked 6 9 (by decide) rfl,
   (park_lists_are_lifo.2.2.1 (chFullParked.send 9 (some 6)).1 none 6 [4]
     (by decide) (by decide)).1⟩

/-- C9: every public channel operation is total on a NULL channel pointer:
send and close return with no effect, recv returns the NULL pointer,
try_send and try_recv return 0 (try_recv without writing its
out-parameter), and is_closed reports a NULL channel as closed. -/
theorem null_channel_operations_total :
    (∀ (v : Nat) (cur : Option Nat),
      runtime_channel_send none v cur = (none, none))
    ∧ (∀ cur : Option Nat,
      runtime_channel_recv none cur = (none, RecvResult.nullPtr, none))
    ∧ runtime_channel_close none = none
    ∧ (∀ v : Nat, runtime_channel_try_send none v = (none, false))
    ∧ runtime_channel_try_recv none = (none, false, none)
    ∧ runtime_channel_is_closed none = true :=
  ⟨fun _ _ => rfl, fun _ => rfl, rfl, fun _ => rfl, rfl, rfl⟩

/-! ## Unblock guard (C10) -/

/-- C10: runtime_legion_unblock and unblock_legion_from_channel applied to
a legion that is not BLOCKED are no-ops: the legion record (state and
blocked_on), the active_legions counter and every run queue are returned
exactly as given, and the legion is not enqueued anywhere. -/
theorem unblock_nonblocked_is_noop (s : SchedState) (leg : LegionRec)
    (lid : Nat) (h : leg.state ≠ LegState.blocked) :
    runtime_legion_unblock s leg lid = (s, leg)
    ∧ unblock_legion_from_channel s leg lid = (s, leg) := by
  constructor
  · unfold runtime_legion_unblock
    rw [if_pos h]
  · unfold unblock_legion_from_channel
    rw [if_pos h]

/-- Concrete scheduler state (one legion queued on worker 0) for the C10
witness. -/
def schedOneQueued : SchedState :=
  { queues := fun i =>
      if i = 0 then
        { slots := 9 :: List.replicate 255 0, head := 0, tail := 1 }
      else { slots := List.replicate 256 0, head := 0, tail := 0 }
    activeLegions := 1 }

/-- Witness for C10 on a RUNNING legion: both unblock functions return the
scheduler and legion unchanged. -/
theorem unblock_nonblocked_is_noop_witness :
    ({ state := LegState.running, blockedOn := some 2 } : LegionRec).state
        ≠ LegState.blocked
    ∧ runtime_legion_unblock schedOneQueued
        { state := LegState.running, blockedOn := some 2 } 9
        = (schedOneQueued, { state := LegState.running, blockedOn := some 2 })
    ∧ unblock_legion_from_channel schedOneQueued
        { state := LegState.running, blockedOn := some 2 } 9
        = (schedOneQueued,
           { state := LegState.running, blockedOn := some 2 }) :=
  ⟨by decide,
   (unblock_nonblocked_is_noop schedOneQueued
     { state := LegState.running, blockedOn := some 2 } 9 (by decide)).1,
   (unblock_nonblocked_is_noop schedOneQueued
     { state := LegState.running, blockedOn := some 2 } 9 (by decide)).2⟩

/-! ## Submission overflow (C1), owner-pop race (C8), spawn clamp (C6) -/

/-- A completely full run queue (255 queued legions; advancing tail would
meet head). -/
def fullQueue : RunQueue :=
  { slots := List.replicate 256 0, head := 0, tail := 255 }

/-- Scheduler state in which all four run queues are full. -/
def fullSched : SchedState :=
  { queues := fun _ => fullQueue, activeLegions := 0 }

set_option maxRecDepth 8192 in
/-- C1 (code divergence): submitting legion 42 while every run queue is
full leaves every queue unchanged and the legion on no queue, although
active_legions was still incremented: runtime_legion_start falls into the
mutex path of the chosen worker, finds it still full, and returns without
storing the legion anywhere; there is no spinning across workers. -/
theorem start_on_full_queues_drops_legion :
    (∀ i : Fin 4,
      (runtime_legion_start fullSched 42).queues i = fullSched.queues i)
    ∧ ¬ legionOnSomeQueue (runtime_legion_start fullSched 42) 42
    ∧ (runtime_legion_start fullSched 42).activeLegions = 1 := by
  refine ⟨?_, ?_, ?_⟩ <;> decide

/-- Queue holding legions 7 and 8, used to exhibit the owner-pop/steal
race. -/
def raceQueue : RunQueue :=
  { slots := 7 :: 8 :: List.replicate 254 0, head := 0, tail := 2 }

set_option maxRecDepth 8192 in
/-- C8 (code divergence): pop_from_local_queue advances head with an
unconditional atomic store, not a compare-and-swap.  Interleaving an owner
pop around a complete successful steal of the same queue: the owner
snapshots head 0 and slot 7, the thief CAS-steals slot 0 obtaining legion
7 and advancing head to 1, and the owner then still commits, storing head
1 and returning legion 7 as well — the owner pop took effect although head
had changed since it was read, and both calls returned the same slot.  The
uninterleaved composition of the two phases is pop_from_local_queue. -/
theorem owner_pop_races_steal_same_slot :
    popLocalSnapshot raceQueue = some (0, 7)
    ∧ (steal_from_queue raceQueue).2 = some 7
    ∧ (steal_from_queue raceQueue).1.head = 1
    ∧ (popLocalCommit 0 (steal_from_queue raceQueue).1).head = 1
    ∧ pop_from_local_queue raceQueue = (popLocalCommit 0 raceQueue, some 7) := by
  refine ⟨?_, ?_, ?_, ?_, ?_⟩ <;> decide

/-- C6 counterexample: a nonzero stack request below 256 KiB is used
as-is, so the usable stack of the spawned legion is smaller than the claimed
256 KiB minimum (request 1024 yields stack size 1024). -/
theorem spawn_small_request_not_raised :
    (runtime_legion_spawn 1 2 1024 4096 11 12 13).stackSize = 1024
    ∧ 1024 < LEGION_STACK_SIZE := by
  refine ⟨?_, ?_⟩ <;> decide

/-- C6 (amended): runtime_legion_spawn caps every request at 2 MiB,
defaults a zero request to 256 KiB, and uses any other request as given
(so the stack is at least 256 KiB whenever the request is zero or itself
at least 256 KiB, but a smaller nonzero request is not raised); the legion
is returned in RUNNABLE state with thread_id -1, no parked linkage, no
blocked channel, and a fresh context built by the trampoline over its own
stack. -/
theorem spawn_clamp_and_fresh_state (fn arg req base selfA tramp entry : Nat) :
    (runtime_legion_spawn fn arg req base selfA tramp entry).stackSize
        ≤ LEGION_STACK_MAX
    ∧ ((req = 0 ∨ LEGION_STACK_SIZE ≤ req) →
        LEGION_STACK_SIZE ≤
          (runtime_legion_spawn fn arg req base selfA tramp entry).stackSize)
    ∧ (req ≠ 0 → req ≤ LEGION_STACK_MAX →
        (runtime_legion_spawn fn arg req base selfA tramp entry).stackSize
          = req)
    ∧ (runtime_legion_spawn fn arg req base selfA tramp entry).state
        = LegState.runnable
    ∧ (runtime_legion_spawn fn arg req base selfA tramp entry).threadId = -1
    ∧ (runtime_legion_spawn fn arg req base selfA tramp entry).next = none
    ∧ (runtime_legion_spawn fn arg req base selfA tramp entry).blockedOn
        = none
    ∧ (runtime_legion_spawn fn arg req base selfA tramp entry).ctx
        = malphas_context_make_trampoline tramp entry selfA base
            (spawnStackSize req) := by
  have hss : spawnStackSize req ≤ LEGION_STACK_MAX := by
    unfold spawnStackSize LEGION_STACK_MAX LEGION_STACK_SIZE
    by_cases h0 : req = 0
    · simp only [if_pos h0]
      split <;> omega
    · simp only [if_neg h0]
      split <;> omega
  have hlb : (req = 0 ∨ LEGION_STACK_SIZE ≤ req) →
      LEGION_STACK_SIZE ≤ spawnStackSize req := by
    intro hr
    unfold LEGION_STACK_SIZE at hr
    unfold spawnStackSize LEGION_STACK_MAX LEGION_STACK_SIZE
    by_cases h0 : req = 0
    · simp only [if_pos h0]
      split <;> omega
    · simp only [if_neg h0]
      have hge : 256 * 1024 ≤ req := by
        rcases hr with hr | hr
        · exact absurd hr h0
        · exact hr
      split <;> omega
  have hid : req ≠ 0 → req ≤ LEGION_STACK_MAX → spawnStackSize req = req := by
    intro h0 hmax
    unfold LEGION_STACK_MAX at hmax
    unfold spawnStackSize LEGION_STACK_MAX
    simp only [if_neg h0]
    rw [if_neg (by omega)]
  exact ⟨hss, hlb, hid, rfl, rfl, rfl, rfl, rfl⟩

/-- Witness for the amended C6 at a zero request: the defaulted stack is
exactly between the bounds and the legion is RUNNABLE with thread_id
-1. -/
theorem spawn_clamp_and_fresh_state_witness :
    LEGION_STACK_SIZE ≤ (runtime_legion_spawn 1 2 0 4096 11 12 13).stackSize
    ∧ (runtime_legion_spawn 1 2 0 4096 11 12 13).stackSize ≤ LEGION_STACK_MAX
    ∧ (runtime_legion_spawn 1 2 0 4096 11 12 13).state = LegState.runnable
    ∧ (runtime_legion_spawn 1 2 0 4096 11 12 13).threadId = -1 :=
  ⟨(spawn_clamp_and_fresh_state 1 2 0 4096 11 12 13).2.1 (Or.inl rfl),
   (spawn_clamp_and_fresh_state 1 2 0 4096 11 12 13).1,
   (spawn_clamp_and_fresh_state 1 2 0 4096 11 12 13).2.2.2.1,
   (spawn_clamp_and_fresh_state 1 2 0 4096 11 12 13).2.2.2.2.1⟩
